import Mathlib

/-
Shallow embedding of src/ngg_scraper.py (the NextGEN Gallery image scraper).

Strings are modelled as Lean strings, the local filesystem as a function
from file paths to optional file contents, and the network as an explicit
oracle (a function from URLs to responses).  Python set insertion is
modelled as order-preserving insertion without duplicates.  Machine
behaviour that the script relies on (Python regex dollar anchor semantics,
str.replace replacing every occurrence, urljoin for path-absolute
references, urlparse path extraction, os.path.basename) is transcribed
into executable list-of-characters functions below.
-/

/-- Replace every non-overlapping occurrence of `pat` by `rep`, scanning left
to right, exactly as Python `str.replace`.  The natural number is fuel, always
called with the length of the list, which is an upper bound on the number of
recursion steps. -/
def replaceAllAux (pat rep : List Char) : Nat → List Char → List Char
  | 0, l => l
  | _ + 1, [] => []
  | n + 1, c :: rest =>
    if !pat.isEmpty && pat.isPrefixOf (c :: rest) then
      rep ++ replaceAllAux pat rep n ((c :: rest).drop pat.length)
    else
      c :: replaceAllAux pat rep n rest

/-- Python `s.replace(pat, rep)`. -/
def strReplace (s pat rep : String) : String :=
  ⟨replaceAllAux pat.data rep.data s.data.length s.data⟩

/-- Whether `pat` occurs as a contiguous sublist: Python `pat in s`. -/
def containsSub (pat : List Char) : List Char → Bool
  | [] => pat.isEmpty
  | c :: r => pat.isPrefixOf (c :: r) || containsSub pat r

/-- Python `pat in s` on strings. -/
def containsStr (s pat : String) : Bool := containsSub pat.data s.data

/-- The remainder of the list after the first occurrence of `pat`,
or `none` when `pat` does not occur. -/
def afterMarker (pat : List Char) : List Char → Option (List Char)
  | [] => none
  | c :: r =>
    if pat.isPrefixOf (c :: r) then some ((c :: r).drop pat.length)
    else afterMarker pat r

def schemeMarker : List Char := [':', '/', '/']

/-- The path component of a URL, as `urllib.parse.urlparse(u).path`:
drop `scheme://host`, cut at the first `?` or `#`. -/
def urlPath (u : String) : String :=
  let rest := match afterMarker schemeMarker u.data with
    | some r => r.dropWhile (fun c => !(c == '/'))
    | none => u.data
  ⟨rest.takeWhile (fun c => !(c == '?') && !(c == '#'))⟩

/-- `os.path.basename`: the characters after the last slash. -/
def basename (p : String) : String :=
  ⟨p.data.foldl (fun acc c => if c == '/' then [] else acc ++ [c]) []⟩

/-- `scheme://host` of a URL, empty when the URL has no `://`. -/
def origin (u : String) : String :=
  match afterMarker schemeMarker u.data with
  | some rest =>
      ⟨u.data.take (u.data.length - rest.length) ++ rest.takeWhile (fun c => !(c == '/'))⟩
  | none => ""

/-- Lines 92 to 95 of the script: protocol-relative URLs get the `https`
scheme, path-absolute URLs are resolved with `urljoin(link, url)` which
for a path-absolute reference yields the origin of `link` followed by the
reference, and anything else is used as is. -/
def normalizeUrl (link u : String) : String :=
  if ['/', '/'].isPrefixOf u.data then "https:" ++ u
  else if ['/'].isPrefixOf u.data then origin link ++ u
  else u

/-- Lines 71 to 75: guess the full-size URL by removing `/thumbs/thumbs_`
and then any remaining `/thumbs/` (every occurrence, as str.replace does). -/
def rewriteThumbs (u : String) : String :=
  strReplace (strReplace u "/thumbs/thumbs_" "/") "/thumbs/" "/"

/-- The alternation of the regex on line 124. -/
def imageExts : List String := ["jpg", "jpeg", "png", "gif", "webp"]

/-- IGNORECASE is modelled by lowercasing the subject (the pattern is
lowercase ASCII). -/
def lowerList (cs : List Char) : List Char := cs.map Char.toLower

/-- The Python regex `$` anchor without MULTILINE: matches at the end of the
subject or just before a newline that ends the subject. -/
def reDollar (l : List Char) : Bool := l.isEmpty || l == ['\n']

/-- Whether `\.(jpg|jpeg|png|gif|webp)$` matches at the start of `l`. -/
def reExtHere (l : List Char) : Bool :=
  imageExts.any (fun e =>
    ('.' :: e.data).isPrefixOf l && reDollar (l.drop (e.data.length + 1)))

/-- `re.search` tries the pattern at every position of the subject. -/
def reSearchExt : List Char → Bool
  | [] => reExtHere []
  | c :: r => reExtHere (c :: r) || reSearchExt r

/-- Line 123-124 of the script:
`re.search(r"\.(jpg|jpeg|png|gif|webp)$", url, re.IGNORECASE)`,
truthy exactly when the regex matches somewhere. -/
def is_image_url (url : String) : Bool := reSearchExt (lowerList url.data)

/-- A rendered HTML element: tag name, attributes, children.  This is the
typed document tree that BeautifulSoup exposes to the script. -/
inductive Element where
  | mk (tag : String) (attrs : List (String × String)) (children : List Element)

/-- `tag.get(name)`: the first attribute with that name, if any. -/
def getAttr (attrs : List (String × String)) (n : String) : Option String :=
  match attrs.find? (fun p => p.1 == n) with
  | some p => some p.2
  | none => none

/-- Split a class attribute on whitespace, as BeautifulSoup does. -/
def splitWSAux : List Char → List Char → List (List Char)
  | [], cur => if cur.isEmpty then [] else [cur.reverse]
  | c :: r, cur =>
    if c == ' ' || c == '\t' || c == '\n' || c == '\r' then
      if cur.isEmpty then splitWSAux r [] else cur.reverse :: splitWSAux r []
    else splitWSAux r (c :: cur)

/-- Whether the element carries the given CSS class. -/
def hasClassA (attrs : List (String × String)) (c : String) : Bool :=
  match getAttr attrs "class" with
  | some s => (splitWSAux s.data []).contains c.data
  | none => false

/- `soup.select(".ngg-gallery-thumbnail a, .ngg-fancybox")` in document
order: an anchor below an element of class `ngg-gallery-thumbnail`, or any
element of class `ngg-fancybox`.  The flag records whether an ancestor
carries the `ngg-gallery-thumbnail` class. -/
mutual
def selectNgg (inThumb : Bool) : Element → List Element
  | Element.mk t a cs =>
    (if (t == "a" && inThumb) || hasClassA a "ngg-fancybox"
      then [Element.mk t a cs] else [])
      ++ selectNggList (inThumb || hasClassA a "ngg-gallery-thumbnail") cs
def selectNggList (inThumb : Bool) : List Element → List Element
  | [] => []
  | e :: es => selectNgg inThumb e ++ selectNggList inThumb es
end

/- `soup.find_all(["a", "img"])` in document order. -/
mutual
def findAllAImg : Element → List Element
  | Element.mk t a cs =>
    (if t == "a" || t == "img" then [Element.mk t a cs] else [])
      ++ findAllAImgList cs
def findAllAImgList : List Element → List Element
  | [] => []
  | e :: es => findAllAImg e ++ findAllAImgList es
end

/-- Python set insertion, keeping first-insertion order. -/
def insertUniq (acc : List String) (u : String) : List String :=
  if u ∈ acc then acc else acc ++ [u]

/-- Lines 57 to 60, one selected element: take `href` when truthy and
`is_image_url` accepts it. -/
def pass1Step (acc : List String) (e : Element) : List String :=
  match e with
  | Element.mk _ a _ =>
    match getAttr a "href" with
    | some h => if h == "" then acc else if is_image_url h then insertUniq acc h else acc
    | none => acc

/-- Lines 63 to 78, one `a`/`img` element: `tag.get("href") or
tag.get("src")`, kept when it mentions the gallery storage path, with the
thumbnail rewrite applied when the URL contains `/thumbs/`. -/
def pass2Step (acc : List String) (e : Element) : List String :=
  match e with
  | Element.mk _ a _ =>
    let u? := match getAttr a "href" with
      | some h => if h == "" then getAttr a "src" else some h
      | none => getAttr a "src"
    match u? with
    | none => acc
    | some u =>
      if u == "" then acc
      else if containsStr u "/wp-content/gallery/" then
        if containsStr u "/thumbs/" then insertUniq acc (rewriteThumbs u)
        else insertUniq acc u
      else acc

/-- Lines 53 to 78: the `images_to_download` set built from both extraction
passes, as the ordered list of its distinct members. -/
def locateImages (doc : Element) : List String :=
  let s1 := (selectNgg false doc).foldl pass1Step []
  (findAllAImg doc).foldl pass2Step s1

/-- The `title` field of a post as found in the JSON input: absent, a JSON
object with an optional `rendered` field, or a plain JSON string. -/
inductive TitleVal where
  | absent
  | obj (rendered : Option String)
  | str (s : String)

/-- One record of the posts file (line 31-34 reads `link`, `title`, `slug`,
`id` with `.get`). -/
structure Post where
  id : Option Int
  link : Option String
  title : TitleVal
  slug : Option String

/-- Line 33: `post.get("title", {}).get("rendered", "untitled")`.  A missing
title or a missing `rendered` field falls back to "untitled"; a plain string
title raises AttributeError, because `str` has no `get` method, and this
expression sits outside the try block. -/
def getTitle : TitleVal → Except String String
  | TitleVal.absent => Except.ok "untitled"
  | TitleVal.obj none => Except.ok "untitled"
  | TitleVal.obj (some r) => Except.ok r
  | TitleVal.str _ => Except.error "AttributeError: str object has no attribute get"

/-- Line 34: `post.get("slug", str(post.get("id")))`. -/
def slugOf (p : Post) : String :=
  match p.slug with
  | some s => s
  | none =>
    match p.id with
    | some n => toString n
    | none => "None"

/-- Outcome of `session.get(link)` on a page: a status code with the parsed
document, or a raised requests exception (network error, timeout). -/
inductive PageResult where
  | status (code : Nat) (body : Element)
  | exn

/-- Outcome of `session.get(img_url, stream=True)` plus the streaming write:
a status code with the payload, where `writeFail` records whether an I/O
error is raised while the chunks are written (after `open` has created the
file), or a raised exception at the request itself. -/
inductive ImgResult where
  | status (code : Nat) (content : Nat) (writeFail : Bool)
  | exn

/-- The unchanged remote site: a deterministic oracle for page and image
requests. -/
structure Remote where
  page : String → PageResult
  img : String → ImgResult

/-- Contents of a file in the output tree: fully streamed, or cut short by
an I/O error during the write. -/
inductive FileContent where
  | full (data : Nat)
  | truncated (data : Nat)
  deriving DecidableEq

/-- Observable state threaded through the crawl: the output tree, the
`total_downloaded` counter, the printed lines, the image GET requests
issued, and the accumulated `time.sleep` amount. -/
structure CrawlState where
  fs : String → Option FileContent
  downloaded : Nat
  log : List String
  imgRequests : List String
  slept : ℚ

def addLog (st : CrawlState) (m : String) : CrawlState :=
  { st with log := st.log ++ [m] }

def addSleep (st : CrawlState) (d : ℚ) : CrawlState :=
  { st with slept := st.slept + d }

def updFs (f : String → Option FileContent) (p : String) (v : FileContent) :
    String → Option FileContent :=
  fun q => if q = p then some v else f q

/-- The file path a candidate URL is saved at (lines 92-98): normalize,
take the basename of the URL path, join under the record directory. -/
def fpOf (dir link raw : String) : String :=
  dir ++ "/" ++ basename (urlPath (normalizeUrl link raw))

/-- Lines 91 to 113: one member of `images_to_download`.  The existence
check runs before any request; on status 200 the chunks are streamed to the
file and the counter is bumped, unless the write raises, in which case the
partly written file stays and the error is printed; a non-200 status is
silently ignored; a request exception is printed.  Every branch leaves the
loop running. -/
def processImage (remote : Remote) (link dir : String) (st : CrawlState)
    (raw : String) : CrawlState :=
  let u := normalizeUrl link raw
  let filepath := fpOf dir link raw
  if (st.fs filepath).isSome then st
  else
    let st1 := { st with imgRequests := st.imgRequests ++ [u] }
    match remote.img u with
    | ImgResult.exn => addLog st1 ("    Error downloading " ++ u)
    | ImgResult.status code content writeFail =>
      if code = 200 then
        if writeFail then
          addLog { st1 with fs := updFs st1.fs filepath (FileContent.truncated content) }
            ("    Error downloading " ++ u)
        else
          { st1 with fs := updFs st1.fs filepath (FileContent.full content),
                     downloaded := st1.downloaded + 1 }
      else st1

/-- The download loop over the candidate set of one record. -/
def downloadAll (remote : Remote) (link dir : String) (imgs : List String)
    (st : CrawlState) : CrawlState :=
  imgs.foldl (processImage remote link dir) st

/-- Lines 39 to 115 for a record that has a link: print the scanning line,
fetch the page, bail out on a non-200 status (printed) or a raised request
exception (caught at line 117 and printed), otherwise locate and download
the images and finally sleep.  The `continue` on a failed fetch and the
exception handler both skip the `time.sleep` at line 115, which only runs
at the end of the successful branch. -/
def processLinked (remote : Remote) (outputFolder : String) (delay : ℚ)
    (st : CrawlState) (title slug link : String) : CrawlState :=
  let st1 := addLog st ("Scanning: " ++ title)
  match remote.page link with
  | PageResult.exn => addLog st1 "  Error processing post"
  | PageResult.status code body =>
    if code = 200 then
      let imgs := locateImages body
      let st2 :=
        if imgs.isEmpty then st1
        else downloadAll remote link (outputFolder ++ "/" ++ slug) imgs
          (addLog st1 "  Found potential NGG images.")
      addSleep st2 delay
    else addLog st1 ("  Failed to fetch " ++ link)

/-- The body of the record loop once the title extraction has succeeded:
records without a (truthy) link are skipped at line 36-37. -/
def processRecordOk (remote : Remote) (outputFolder : String) (delay : ℚ)
    (st : CrawlState) (p : Post) (title : String) : CrawlState :=
  match p.link with
  | none => st
  | some link =>
    if link = "" then st
    else processLinked remote outputFolder delay st title (slugOf p) link

/-- Lines 31 to 118 for one record.  The title extraction at line 33 runs
before the try block, so its AttributeError propagates and aborts the
crawl, which the error of the Except models. -/
def processRecord (remote : Remote) (outputFolder : String) (delay : ℚ)
    (st : CrawlState) (p : Post) : Except String CrawlState :=
  match getTitle p.title with
  | Except.error e => Except.error e
  | Except.ok t => Except.ok (processRecordOk remote outputFolder delay st p t)

/-- The record loop of `scrape_ngg_images`. -/
def crawl (remote : Remote) (outputFolder : String) (delay : ℚ) :
    List Post → CrawlState → Except String CrawlState
  | [], st => Except.ok st
  | p :: ps, st =>
    match processRecord remote outputFolder delay st p with
    | Except.error e => Except.error e
    | Except.ok st' => crawl remote outputFolder delay ps st'

/-- The `--delay` default of the argument parser (line 134). -/
def defaultDelay : ℚ := 1 / 2

/-- A crawl starts with a given output tree, counter zero, nothing printed,
no requests, no sleeping. -/
def mkInit (fs : String → Option FileContent) : CrawlState :=
  { fs := fs, downloaded := 0, log := [], imgRequests := [], slept := 0 }

/-- `scrape_ngg_images(posts_file, output_folder, delay)` over an already
parsed posts list, a remote oracle and an initial output tree. -/
def scrape_ngg_images (remote : Remote) (posts : List Post)
    (outputFolder : String) (delay : ℚ)
    (fs0 : String → Option FileContent) : Except String CrawlState :=
  crawl remote outputFolder delay posts (mkInit fs0)

/-- The image requests issued by a run, when it does not abort. -/
def runImgRequests (remote : Remote) (posts : List Post)
    (outputFolder : String) (delay : ℚ)
    (fs0 : String → Option FileContent) : Option (List String) :=
  match scrape_ngg_images remote posts outputFolder delay fs0 with
  | Except.ok st => some st.imgRequests
  | Except.error _ => none

/-- The total sleeping time of a run, when it does not abort. -/
def runSlept (remote : Remote) (posts : List Post) (outputFolder : String)
    (delay : ℚ) (fs0 : String → Option FileContent) : Option ℚ :=
  match scrape_ngg_images remote posts outputFolder delay fs0 with
  | Except.ok st => some st.slept
  | Except.error _ => none

/-- The uncaught error a run aborts with, if any. -/
def runError (remote : Remote) (posts : List Post) (outputFolder : String)
    (delay : ℚ) (fs0 : String → Option FileContent) : Option String :=
  match scrape_ngg_images remote posts outputFolder delay fs0 with
  | Except.ok _ => none
  | Except.error e => some e

/-- Whether a run completes without an uncaught error. -/
def runOk (remote : Remote) (posts : List Post) (outputFolder : String)
    (delay : ℚ) (fs0 : String → Option FileContent) : Bool :=
  match scrape_ngg_images remote posts outputFolder delay fs0 with
  | Except.ok _ => true
  | Except.error _ => false

/-- The empty output tree. -/
def emptyFs : String → Option FileContent := fun _ => none

/-- Modelled from the spec, section 4.1: `normalize(candidate, pageURL)`
scheme-qualifies the candidate and rewrites a thumbnail path to the
probable full-size path, removing the `thumbs/thumbs_` filename marker
first and any remaining `thumbs/` segment second. -/
def specNormalize (candidate pageURL : String) : String :=
  rewriteThumbs (normalizeUrl pageURL candidate)

def pageLink : String := "http://example.com/post"

def fullU : String := "http://example.com/wp-content/gallery/album/a.jpg"

def thumbU : String := "http://example.com/wp-content/gallery/album/thumbs/thumbs_a.jpg"

/-- A gallery thumbnail container with two anchors, one at the full-size
image and one at its thumbnail. -/
def doc1 : Element :=
  Element.mk "div" [("class", "ngg-gallery-thumbnail")]
    [Element.mk "a" [("href", fullU)] [],
     Element.mk "a" [("href", thumbU)] []]

def thumbFancyU : String := "http://example.com/media/thumbs/thumbs_photo.jpg"

/-- A lightbox anchor at a thumbnail outside the gallery storage path. -/
def doc2 : Element :=
  Element.mk "a" [("class", "ngg-fancybox"), ("href", thumbFancyU)] []

def galleryThumbU : String :=
  "http://example.com/wp-content/gallery/album/thumbs/thumbs_photo.jpg"

def galleryFullU : String :=
  "http://example.com/wp-content/gallery/album/photo.jpg"

/-- An image tag at a thumbnail inside the gallery storage path. -/
def doc2b : Element := Element.mk "img" [("src", galleryThumbU)] []

/-- A lightbox anchor whose target has a query string after the extension. -/
def docQ : Element :=
  Element.mk "a" [("class", "ngg-fancybox"), ("href", "http://s/photo.jpg?w=800")] []

/-- A lightbox anchor whose target ends in a newline after the extension. -/
def docNl : Element :=
  Element.mk "a" [("class", "ngg-fancybox"), ("href", "http://s/a.jpg\n")] []

def linkedPost : Post :=
  { id := some 1, link := some pageLink, title := TitleVal.absent, slug := some "p1" }

def noLinkPost : Post :=
  { id := some 2, link := none, title := TitleVal.absent, slug := some "p2" }

/-- A record whose title is a plain JSON string instead of an object. -/
def strTitlePost : Post :=
  { id := some 3, link := some pageLink, title := TitleVal.str "Hello", slug := some "p3" }

/-- A remote whose every request raises. -/
def remoteExn : Remote := { page := fun _ => PageResult.exn, img := fun _ => ImgResult.exn }

/-- A remote answering 404 to every page request. -/
def remote404 : Remote :=
  { page := fun _ => PageResult.status 404 (Element.mk "html" [] []),
    img := fun _ => ImgResult.exn }

/-- A remote serving `doc2` at the page link; image requests raise. -/
def remoteC2 : Remote :=
  { page := fun l => if l = pageLink then PageResult.status 200 doc2 else PageResult.exn,
    img := fun _ => ImgResult.exn }

/-- A remote serving `doc2b` at the page link; image requests raise. -/
def remoteC2b : Remote :=
  { page := fun l => if l = pageLink then PageResult.status 200 doc2b else PageResult.exn,
    img := fun _ => ImgResult.exn }

/-- The image extension ends the (lowercased) subject. -/
def extAtEnd (l : List Char) : Bool :=
  imageExts.any (fun e => List.isSuffixOf ('.' :: e.data) l)

/-- The image extension is followed by exactly one final newline. -/
def extAtEndNl (l : List Char) : Bool :=
  imageExts.any (fun e => List.isSuffixOf ('.' :: e.data ++ ['\n']) l)

/-- Domain growth of the output tree. -/
def fsLe (f g : String → Option FileContent) : Prop :=
  ∀ p, (f p).isSome = true → (g p).isSome = true

/-- The image request for `v` produces no file: the request raises, or the
status is not 200. -/
def imgFails (remote : Remote) (v : String) : Prop :=
  remote.img v = ImgResult.exn ∨
    ∃ c ct w, remote.img v = ImgResult.status c ct w ∧ c ≠ 200

/-- The fetch or write of image `v` fails in the sense of claim C7: the
request raises, the status is not a 2xx, or the streaming write raises. -/
def imgAttemptFails (remote : Remote) (v : String) : Prop :=
  remote.img v = ImgResult.exn ∨
    ∃ c ct w, remote.img v = ImgResult.status c ct w ∧ (¬(200 ≤ c ∧ c < 300) ∨ w = true)

/-- The page fetch for `link` fails in the sense of claim C6: the request
raises, or the status is not a 2xx. -/
def pageFails (remote : Remote) (link : String) : Prop :=
  remote.page link = PageResult.exn ∨
    ∃ code body, remote.page link = PageResult.status code body ∧ ¬(200 ≤ code ∧ code < 300)

/-- A candidate URL needs no work on a given output tree: its file already
exists, or its request can produce no file. -/
def imgGood (remote : Remote) (link dir : String)
    (f : String → Option FileContent) (raw : String) : Prop :=
  (f (fpOf dir link raw)).isSome = true ∨ imgFails remote (normalizeUrl link raw)

/-- Every candidate of a record needs no work on a given output tree. -/
def recGood (remote : Remote) (outputFolder : String)
    (f : String → Option FileContent) (p : Post) : Prop :=
  ∀ link body, p.link = some link → link ≠ "" →
    remote.page link = PageResult.status 200 body →
    ∀ raw ∈ locateImages body,
      imgGood remote link (outputFolder ++ "/" ++ slugOf p) f raw


/-- Inserting into the candidate set preserves distinctness. -/
theorem insertUniq_nodup (acc : List String) (u : String) (h : acc.Nodup) :
    (insertUniq acc u).Nodup := by
  unfold insertUniq
  split
  · exact h
  · next hmem => simpa using List.Nodup.concat hmem h

/-- The widget-container pass preserves distinctness. -/
theorem pass1Step_nodup (acc : List String) (e : Element) (h : acc.Nodup) :
    (pass1Step acc e).Nodup := by
  rcases e with ⟨t, a, cs⟩
  simp only [pass1Step]
  split
  · split
    · exact h
    · split
      · exact insertUniq_nodup _ _ h
      · exact h
  · exact h

/-- The path-pattern pass preserves distinctness. -/
theorem pass2Step_nodup (acc : List String) (e : Element) (h : acc.Nodup) :
    (pass2Step acc e).Nodup := by
  rcases e with ⟨t, a, cs⟩
  simp only [pass2Step]
  split
  · exact h
  · split
    · exact h
    · split
      · split
        · exact insertUniq_nodup _ _ h
        · exact insertUniq_nodup _ _ h
      · exact h

/-- A fold whose step preserves a property preserves it overall. -/
theorem foldl_preserve {α β : Type} (f : β → α → β) (P : β → Prop)
    (hf : ∀ acc x, P acc → P (f acc x)) :
    ∀ (l : List α) (acc : β), P acc → P (l.foldl f acc)
  | [], _, h => h
  | x :: xs, acc, h => foldl_preserve f P hf xs (f acc x) (hf acc x h)

/-- The candidate set of a record never holds the same string twice. -/
theorem locateImages_nodup (doc : Element) : (locateImages doc).Nodup := by
  unfold locateImages
  exact foldl_preserve pass2Step List.Nodup pass2Step_nodup _ _
    (foldl_preserve pass1Step List.Nodup pass1Step_nodup _ _ List.nodup_nil)

/-- C1 counterexample: markup with two anchors at `a.jpg` and at
`.../thumbs/thumbs_a.jpg`, both normalizing to the same resolved URL, for
which the candidate set over which downloads are iterated holds two
entries, not one: the widget-container pass stores the raw thumbnail URL,
the path-pattern pass stores the rewritten one, and the set deduplicates
raw strings before normalization. -/
theorem C1_counterexample :
    specNormalize thumbU pageLink = specNormalize fullU pageLink ∧
    thumbU ≠ fullU ∧
    locateImages doc1 = [fullU, thumbU] ∧
    (locateImages doc1).length ≠ 1 :=
  ⟨by decide, by decide, by decide, by decide⟩

/-- C1 amended: the per-record candidate set holds no duplicates under raw
string equality, but entries are collected before normalization, so two
anchors whose targets normalize to the same resolved URL can both appear:
the example markup yields exactly the two entries, the full-size URL and
the raw thumbnail URL. -/
theorem C1_resolved :
    (∀ doc : Element, (locateImages doc).Nodup) ∧
    locateImages doc1 = [fullU, thumbU] ∧
    specNormalize thumbU pageLink = specNormalize fullU pageLink :=
  ⟨locateImages_nodup, by decide, by decide⟩

/-- A record page holding one image tag whose source is a gallery thumbnail
produces exactly the rewritten full-size candidate. -/
theorem locateImages_img_thumbs (src : String) (h0 : (src == "") = false)
    (h1 : containsStr src "/wp-content/gallery/" = true)
    (h2 : containsStr src "/thumbs/" = true) :
    locateImages (Element.mk "img" [("src", src)] []) = [rewriteThumbs src] := by
  simp [locateImages, selectNgg, selectNggList, findAllAImg, findAllAImgList,
    hasClassA, getAttr, List.find?, pass1Step, pass2Step, insertUniq, h0, h1, h2]

/-- C2 counterexample: a lightbox anchor at a thumbnail URL outside the
gallery storage path is collected by the widget-container pass only, and
the URL attempted for download is the raw thumbnail URL, still containing
the `/thumbs/` segment, not the rewritten full-size sibling. -/
theorem C2_counterexample :
    runImgRequests remoteC2 [linkedPost] "out" defaultDelay emptyFs
      = some [thumbFancyU] ∧
    containsStr thumbFancyU "/thumbs/" = true ∧
    rewriteThumbs thumbFancyU ≠ thumbFancyU :=
  ⟨by decide, by decide, by decide⟩

/-- C2 amended: only candidates produced by the path-pattern pass (URLs
mentioning `/wp-content/gallery/`) have the thumbnail rewrite applied, by
removing the `thumbs/thumbs_` filename marker first and any remaining
`thumbs/` segment second; for such a candidate
`.../gallery/album/thumbs/thumbs_photo.jpg` the URL attempted for download
is `.../gallery/album/photo.jpg`.  Candidates from the widget-container
pass are attempted unrewritten. -/
theorem C2_resolved :
    (∀ src : String, (src == "") = false →
        containsStr src "/wp-content/gallery/" = true →
        containsStr src "/thumbs/" = true →
        locateImages (Element.mk "img" [("src", src)] []) = [rewriteThumbs src]) ∧
    rewriteThumbs galleryThumbU = galleryFullU ∧
    runImgRequests remoteC2b [linkedPost] "out" defaultDelay emptyFs
      = some [galleryFullU] :=
  ⟨locateImages_img_thumbs, by decide, by decide⟩

/-- C2 amended, witness: the general part applied to the concrete gallery
thumbnail URL. -/
theorem C2_resolved_witness :
    locateImages (Element.mk "img" [("src", galleryThumbU)] [])
      = [rewriteThumbs galleryThumbU] :=
  C2_resolved.1 galleryThumbU (by decide) (by decide) (by decide)

/-- C3: a record whose `title` field is a plain string makes line 33 call
`.get` on a `str`; the AttributeError is raised outside the try block, so
it is uncaught and the whole crawl aborts before any later record runs.
With the same remote and a record whose title is well shaped, the run
completes.  This contradicts the claim that such a record is processed
without an uncaught error and without aborting the crawl. -/
theorem C3_eval :
    runError remoteExn [strTitlePost, linkedPost] "out" defaultDelay emptyFs
      = some "AttributeError: str object has no attribute get" ∧
    runOk remoteExn [linkedPost] "out" defaultDelay emptyFs = true :=
  ⟨by decide, by decide⟩

/-- C4 counterexample: with the default half-second delay, a run over a
record with no link, a run over a record whose page fetch returns 404, and
a run over a record whose page fetch raises all finish with zero
accumulated sleep: the `continue` at line 45 and the exception handler at
line 117 skip the `time.sleep(delay)` at line 115, and a record with no
link never reaches it. -/
theorem C4_counterexample :
    runSlept remoteExn [noLinkPost] "out2" defaultDelay emptyFs = some 0 ∧
    runSlept remote404 [linkedPost] "out2" defaultDelay emptyFs = some 0 ∧
    runSlept remoteExn [linkedPost] "out2" defaultDelay emptyFs = some 0 ∧
    defaultDelay ≠ 0 :=
  ⟨by decide, by decide, by decide, by norm_num [defaultDelay]⟩

/-- The anchored extension pattern matches at a position exactly when the
whole remaining subject is the pattern, or the pattern followed by one
final newline. -/
theorem reExtHere_iff (l : List Char) :
    reExtHere l = true ↔
      ∃ e ∈ imageExts, l = '.' :: e.data ∨ l = '.' :: e.data ++ ['\n'] := by
  unfold reExtHere
  rw [List.any_eq_true]
  constructor
  · rintro ⟨e, he, hcond⟩
    rw [Bool.and_eq_true, List.isPrefixOf_iff_prefix] at hcond
    obtain ⟨⟨t, ht⟩, hd⟩ := hcond
    refine ⟨e, he, ?_⟩
    have hlen : ('.' :: e.data).length = e.data.length + 1 := by simp
    have hdrop : l.drop (e.data.length + 1) = t := by
      rw [← ht, ← hlen, List.drop_left]
    rw [hdrop] at hd
    unfold reDollar at hd
    rw [Bool.or_eq_true, List.isEmpty_iff, beq_iff_eq] at hd
    rcases hd with h0 | h1
    · left
      rw [← ht, h0, List.append_nil]
    · right
      rw [← ht, h1]
  · rintro ⟨e, he, hl | hl⟩
    · refine ⟨e, he, ?_⟩
      subst hl
      rw [Bool.and_eq_true, List.isPrefixOf_iff_prefix]
      refine ⟨⟨[], List.append_nil _⟩, ?_⟩
      have hdrop : ('.' :: e.data).drop (e.data.length + 1) = [] := by
        simp
      rw [hdrop]
      rfl
    · refine ⟨e, he, ?_⟩
      subst hl
      rw [Bool.and_eq_true, List.isPrefixOf_iff_prefix]
      refine ⟨⟨['\n'], rfl⟩, ?_⟩
      have hlen : ('.' :: e.data).length = e.data.length + 1 := by simp
      have hdrop : ('.' :: e.data ++ ['\n']).drop (e.data.length + 1) = ['\n'] := by
        rw [← hlen, List.drop_left]
      rw [hdrop]
      rfl

/-- The scan over all positions finds the anchored extension pattern
exactly when the subject ends with it, up to one final newline. -/
theorem reSearchExt_iff : ∀ l : List Char,
    reSearchExt l = true ↔
      ∃ e ∈ imageExts, ('.' :: e.data) <:+ l ∨ ('.' :: e.data ++ ['\n']) <:+ l
  | [] => by
    rw [reSearchExt, reExtHere_iff]
    constructor
    · rintro ⟨e, he, h | h⟩ <;> simp at h
    · rintro ⟨e, he, h | h⟩ <;> (rw [List.suffix_nil] at h; simp at h)
  | c :: r => by
    rw [reSearchExt, Bool.or_eq_true, reExtHere_iff, reSearchExt_iff r]
    constructor
    · rintro (⟨e, he, h | h⟩ | ⟨e, he, h | h⟩)
      · exact ⟨e, he, Or.inl (by rw [← h])⟩
      · exact ⟨e, he, Or.inr (by rw [← h])⟩
      · exact ⟨e, he, Or.inl (List.suffix_cons_iff.mpr (Or.inr h))⟩
      · exact ⟨e, he, Or.inr (List.suffix_cons_iff.mpr (Or.inr h))⟩
    · rintro ⟨e, he, h | h⟩ <;> rw [List.suffix_cons_iff] at h
      · rcases h with h | h
        · exact Or.inl ⟨e, he, Or.inl h.symm⟩
        · exact Or.inr ⟨e, he, Or.inl h⟩
      · rcases h with h | h
        · exact Or.inl ⟨e, he, Or.inr h.symm⟩
        · exact Or.inr ⟨e, he, Or.inr h⟩

/-- The acceptance test of the widget-container pass, characterized: a URL
is accepted exactly when, after lowercasing, an image extension ends the
string or is followed by exactly one final newline. -/
theorem is_image_url_iff (u : String) :
    is_image_url u = true ↔
      (extAtEnd (lowerList u.data) || extAtEndNl (lowerList u.data)) = true := by
  rw [is_image_url, reSearchExt_iff, Bool.or_eq_true]
  unfold extAtEnd extAtEndNl
  rw [List.any_eq_true, List.any_eq_true]
  constructor
  · rintro ⟨e, he, h | h⟩
    · exact Or.inl ⟨e, he, List.isSuffixOf_iff_suffix.mpr h⟩
    · exact Or.inr ⟨e, he, List.isSuffixOf_iff_suffix.mpr h⟩
  · rintro (⟨e, he, h⟩ | ⟨e, he, h⟩)
    · exact ⟨e, he, Or.inl (List.isSuffixOf_iff_suffix.mp h)⟩
    · exact ⟨e, he, Or.inr (List.isSuffixOf_iff_suffix.mp h)⟩

/-- C10 counterexample: the href `http://s/a.jpg\n` carries a trailing
character after the extension, yet the widget-container pass accepts it
and the candidate set holds it, because the Python regex dollar anchor
also matches just before a newline that ends the subject. -/
theorem C10_counterexample :
    extAtEnd (lowerList "http://s/a.jpg\n".data) = false ∧
    is_image_url "http://s/a.jpg\n" = true ∧
    locateImages docNl = ["http://s/a.jpg\n"] :=
  ⟨by decide, by decide, by decide⟩

/-- C10 amended: the widget-container pass accepts an href exactly when,
ignoring case, an image extension is the final characters of the URL
string or is followed by exactly one trailing newline; an href with any
other trailing characters after the extension, such as
`photo.jpg?w=800`, is excluded from the candidate set. -/
theorem C10_resolved :
    (∀ u : String, is_image_url u = true ↔
        (extAtEnd (lowerList u.data) || extAtEndNl (lowerList u.data)) = true) ∧
    is_image_url "photo.jpg?w=800" = false ∧
    locateImages docQ = [] ∧
    locateImages docNl = ["http://s/a.jpg\n"] :=
  ⟨is_image_url_iff, by decide, by decide, by decide⟩

theorem fsLe_refl (f : String → Option FileContent) : fsLe f f := fun _ h => h

theorem fsLe_trans {f g h : String → Option FileContent} (h1 : fsLe f g)
    (h2 : fsLe g h) : fsLe f h := fun p hp => h2 p (h1 p hp)

theorem updFs_isSome (f : String → Option FileContent) (p : String)
    (v : FileContent) : ((updFs f p v) p).isSome = true := by
  simp [updFs]

theorem updFs_mono (f : String → Option FileContent) (p : String)
    (v : FileContent) : fsLe f (updFs f p v) := by
  intro q hq
  unfold updFs
  split
  · rfl
  · exact hq

/-- An image whose file already exists is left entirely alone: no request,
no write, no counter bump, no printing. -/
theorem processImage_skip (remote : Remote) (link dir : String) (st : CrawlState)
    (raw : String) (h : (st.fs (fpOf dir link raw)).isSome = true) :
    processImage remote link dir st raw = st := by
  simp [processImage, h]

theorem processImage_slept (remote : Remote) (link dir : String) (st : CrawlState)
    (raw : String) : (processImage remote link dir st raw).slept = st.slept := by
  simp only [processImage]
  split
  · rfl
  · split
    · rfl
    · split
      · split
        · rfl
        · rfl
      · rfl

theorem processImage_fs_mono (remote : Remote) (link dir : String) (st : CrawlState)
    (raw : String) : fsLe st.fs (processImage remote link dir st raw).fs := by
  simp only [processImage]
  split
  · exact fsLe_refl _
  · split
    · exact fsLe_refl _
    · split
      · split
        · exact updFs_mono _ _ _
        · exact updFs_mono _ _ _
      · exact fsLe_refl _

/-- After one image is processed, its file exists or its request can
produce no file. -/
theorem processImage_good_self (remote : Remote) (link dir : String)
    (st : CrawlState) (raw : String) :
    imgGood remote link dir (processImage remote link dir st raw).fs raw := by
  by_cases h : (st.fs (fpOf dir link raw)).isSome = true
  · rw [processImage_skip remote link dir st raw h]
    exact Or.inl h
  · unfold imgGood
    simp only [processImage, h, if_false]
    cases hi : remote.img (normalizeUrl link raw) with
    | exn => exact Or.inr (Or.inl hi)
    | status code content writeFail =>
      by_cases hc : code = 200
      · subst hc
        cases hw : writeFail with
        | true => simp [hi, addLog, updFs_isSome]
        | false => simp [hi, updFs_isSome]
      · exact Or.inr (Or.inr ⟨code, content, writeFail, hi, hc⟩)

/-- An image that needs no work changes neither the output tree nor the
counter. -/
theorem processImage_noop (remote : Remote) (link dir : String) (st : CrawlState)
    (raw : String) (h : imgGood remote link dir st.fs raw) :
    (processImage remote link dir st raw).fs = st.fs ∧
      (processImage remote link dir st raw).downloaded = st.downloaded := by
  by_cases hex : (st.fs (fpOf dir link raw)).isSome = true
  · rw [processImage_skip remote link dir st raw hex]
    exact ⟨rfl, rfl⟩
  · rcases h with h | h
    · exact absurd h hex
    · rcases h with h | ⟨c, ct, w, hi, hc⟩
      · simp [processImage, hex, h, addLog]
      · simp [processImage, hex, hi, hc]

theorem imgGood_mono (remote : Remote) (link dir : String)
    {f g : String → Option FileContent} (hfg : fsLe f g) (raw : String)
    (h : imgGood remote link dir f raw) : imgGood remote link dir g raw := by
  rcases h with h | h
  · exact Or.inl (hfg _ h)
  · exact Or.inr h

theorem downloadAll_cons (remote : Remote) (link dir x : String)
    (rest : List String) (st : CrawlState) :
    downloadAll remote link dir (x :: rest) st
      = downloadAll remote link dir rest (processImage remote link dir st x) := rfl

theorem downloadAll_slept (remote : Remote) (link dir : String) :
    ∀ (imgs : List String) (st : CrawlState),
      (downloadAll remote link dir imgs st).slept = st.slept
  | [], _ => rfl
  | raw :: rest, st => by
    rw [downloadAll_cons,
      downloadAll_slept remote link dir rest (processImage remote link dir st raw),
      processImage_slept]

theorem downloadAll_fs_mono (remote : Remote) (link dir : String) :
    ∀ (imgs : List String) (st : CrawlState),
      fsLe st.fs (downloadAll remote link dir imgs st).fs
  | [], _ => fsLe_refl _
  | raw :: rest, st => by
    rw [downloadAll_cons]
    exact fsLe_trans (processImage_fs_mono remote link dir st raw)
      (downloadAll_fs_mono remote link dir rest (processImage remote link dir st raw))

/-- After the download loop, every member of the candidate list needs no
further work. -/
theorem downloadAll_good (remote : Remote) (link dir : String) :
    ∀ (imgs : List String) (st : CrawlState) (raw : String), raw ∈ imgs →
      imgGood remote link dir (downloadAll remote link dir imgs st).fs raw
  | [], _, raw, h => absurd h (List.not_mem_nil raw)
  | x :: rest, st, raw, h => by
    rw [downloadAll_cons]
    rcases List.mem_cons.mp h with h | h
    · subst h
      exact imgGood_mono remote link dir
        (downloadAll_fs_mono remote link dir rest (processImage remote link dir st raw))
        raw (processImage_good_self remote link dir st raw)
    · exact downloadAll_good remote link dir rest (processImage remote link dir st x) raw h

/-- A download loop over candidates that all need no work changes neither
the output tree nor the counter. -/
theorem downloadAll_noop (remote : Remote) (link dir : String) :
    ∀ (imgs : List String) (st : CrawlState),
      (∀ raw ∈ imgs, imgGood remote link dir st.fs raw) →
      (downloadAll remote link dir imgs st).fs = st.fs ∧
        (downloadAll remote link dir imgs st).downloaded = st.downloaded
  | [], _, _ => ⟨rfl, rfl⟩
  | x :: rest, st, h => by
    obtain ⟨hfs, hdl⟩ :=
      processImage_noop remote link dir st x (h x (List.mem_cons_self x rest))
    have hrest : ∀ raw ∈ rest,
        imgGood remote link dir (processImage remote link dir st x).fs raw := by
      intro raw hr
      rw [hfs]
      exact h raw (List.mem_cons_of_mem x hr)
    obtain ⟨h1, h2⟩ :=
      downloadAll_noop remote link dir rest (processImage remote link dir st x) hrest
    rw [downloadAll_cons]
    exact ⟨h1.trans hfs, h2.trans hdl⟩

@[simp] theorem addLog_fs (st : CrawlState) (m : String) : (addLog st m).fs = st.fs := rfl

@[simp] theorem addLog_downloaded (st : CrawlState) (m : String) :
    (addLog st m).downloaded = st.downloaded := rfl

@[simp] theorem addLog_slept (st : CrawlState) (m : String) :
    (addLog st m).slept = st.slept := rfl

@[simp] theorem addLog_imgRequests (st : CrawlState) (m : String) :
    (addLog st m).imgRequests = st.imgRequests := rfl

@[simp] theorem addLog_log (st : CrawlState) (m : String) :
    (addLog st m).log = st.log ++ [m] := rfl

@[simp] theorem addSleep_fs (st : CrawlState) (d : ℚ) : (addSleep st d).fs = st.fs := rfl

@[simp] theorem addSleep_downloaded (st : CrawlState) (d : ℚ) :
    (addSleep st d).downloaded = st.downloaded := rfl

@[simp] theorem addSleep_slept (st : CrawlState) (d : ℚ) :
    (addSleep st d).slept = st.slept + d := rfl

@[simp] theorem addSleep_imgRequests (st : CrawlState) (d : ℚ) :
    (addSleep st d).imgRequests = st.imgRequests := rfl

@[simp] theorem mkInit_fs (f : String → Option FileContent) : (mkInit f).fs = f := rfl

@[simp] theorem mkInit_downloaded (f : String → Option FileContent) :
    (mkInit f).downloaded = 0 := rfl

theorem processLinked_exn (remote : Remote) (outputFolder : String) (delay : ℚ)
    (st : CrawlState) (title slug link : String)
    (hpage : remote.page link = PageResult.exn) :
    processLinked remote outputFolder delay st title slug link
      = addLog (addLog st ("Scanning: " ++ title)) "  Error processing post" := by
  simp [processLinked, hpage]

theorem processLinked_bad (remote : Remote) (outputFolder : String) (delay : ℚ)
    (st : CrawlState) (title slug link : String) (code : Nat) (body : Element)
    (hpage : remote.page link = PageResult.status code body) (hc : code ≠ 200) :
    processLinked remote outputFolder delay st title slug link
      = addLog (addLog st ("Scanning: " ++ title)) ("  Failed to fetch " ++ link) := by
  simp [processLinked, hpage, hc]

theorem processLinked_200 (remote : Remote) (outputFolder : String) (delay : ℚ)
    (st : CrawlState) (title slug link : String) (body : Element)
    (hpage : remote.page link = PageResult.status 200 body) :
    processLinked remote outputFolder delay st title slug link
      = addSleep
          (if (locateImages body).isEmpty then addLog st ("Scanning: " ++ title)
           else downloadAll remote link (outputFolder ++ "/" ++ slug) (locateImages body)
             (addLog (addLog st ("Scanning: " ++ title)) "  Found potential NGG images."))
          delay := by
  simp [processLinked, hpage]

theorem processRecordOk_none (remote : Remote) (outputFolder : String) (delay : ℚ)
    (st : CrawlState) (p : Post) (t : String) (hlink : p.link = none) :
    processRecordOk remote outputFolder delay st p t = st := by
  simp [processRecordOk, hlink]

theorem processRecordOk_empty (remote : Remote) (outputFolder : String) (delay : ℚ)
    (st : CrawlState) (p : Post) (t : String) (hlink : p.link = some "") :
    processRecordOk remote outputFolder delay st p t = st := by
  simp [processRecordOk, hlink]

theorem processRecordOk_some (remote : Remote) (outputFolder : String) (delay : ℚ)
    (st : CrawlState) (p : Post) (t link : String) (hlink : p.link = some link)
    (hne : link ≠ "") :
    processRecordOk remote outputFolder delay st p t
      = processLinked remote outputFolder delay st t (slugOf p) link := by
  simp [processRecordOk, hlink, hne]

theorem processRecord_ok_eq (remote : Remote) (outputFolder : String) (delay : ℚ)
    (st : CrawlState) (p : Post) (t : String) (ht : getTitle p.title = Except.ok t) :
    processRecord remote outputFolder delay st p
      = Except.ok (processRecordOk remote outputFolder delay st p t) := by
  simp [processRecord, ht]

theorem crawl_nil (remote : Remote) (outputFolder : String) (delay : ℚ)
    (st : CrawlState) : crawl remote outputFolder delay [] st = Except.ok st := rfl

theorem crawl_cons_ok (remote : Remote) (outputFolder : String) (delay : ℚ)
    (st : CrawlState) (p : Post) (ps : List Post) (t : String)
    (ht : getTitle p.title = Except.ok t) :
    crawl remote outputFolder delay (p :: ps) st
      = crawl remote outputFolder delay ps (processRecordOk remote outputFolder delay st p t) := by
  rw [crawl, processRecord_ok_eq remote outputFolder delay st p t ht]

/-- A failing fetch or write never bumps the downloaded counter. -/
theorem processImage_fail_downloaded (remote : Remote) (link dir : String)
    (st : CrawlState) (raw : String)
    (hf : imgAttemptFails remote (normalizeUrl link raw)) :
    (processImage remote link dir st raw).downloaded = st.downloaded := by
  by_cases hex : (st.fs (fpOf dir link raw)).isSome = true
  · rw [processImage_skip remote link dir st raw hex]
  · rcases hf with h | ⟨c, ct, w, hi, hcw⟩
    · simp [processImage, hex, h, addLog]
    · rcases hcw with hc | hw
      · have hne : c ≠ 200 := by
          intro h200
          subst h200
          exact hc ⟨le_refl 200, by norm_num⟩
        simp [processImage, hex, hi, hne]
      · subst hw
        by_cases hc : c = 200
        · subst hc
          simp [processImage, hex, hi, addLog]
        · simp [processImage, hex, hi, hc]

/-- An image whose file is absent is requested exactly once, at its
normalized URL, whatever the outcome. -/
theorem processImage_requests_fresh (remote : Remote) (link dir : String)
    (st : CrawlState) (raw : String)
    (h : st.fs (fpOf dir link raw) = none) :
    (processImage remote link dir st raw).imgRequests
      = st.imgRequests ++ [normalizeUrl link raw] := by
  have hex : (st.fs (fpOf dir link raw)).isSome = false := by
    rw [h]
    rfl
  simp only [processImage, hex, Bool.false_eq_true, if_false]
  split
  · rfl
  · split
    · split
      · rfl
      · rfl
    · rfl

/-- C4 amended: the inter-record delay is applied only after records whose
page fetch returned status exactly 200 and whose processing raised no
error; a record with no link, or whose page fetch raises or returns any
other status, hands control to the next record with no delay applied. -/
theorem C4_resolved :
    (∀ (remote : Remote) (outputFolder : String) (delay : ℚ) (st : CrawlState)
        (p : Post) (t : String), getTitle p.title = Except.ok t →
        (p.link = none ∨ p.link = some "") →
        processRecord remote outputFolder delay st p = Except.ok st) ∧
    (∀ (remote : Remote) (outputFolder : String) (delay : ℚ) (st : CrawlState)
        (p : Post) (t link : String) (body : Element),
        getTitle p.title = Except.ok t → p.link = some link → link ≠ "" →
        remote.page link = PageResult.status 200 body →
        ∃ st', processRecord remote outputFolder delay st p = Except.ok st' ∧
          st'.slept = st.slept + delay) ∧
    (∀ (remote : Remote) (outputFolder : String) (delay : ℚ) (st : CrawlState)
        (p : Post) (t link : String),
        getTitle p.title = Except.ok t → p.link = some link → link ≠ "" →
        (remote.page link = PageResult.exn ∨
          ∃ code body, remote.page link = PageResult.status code body ∧ code ≠ 200) →
        ∃ st', processRecord remote outputFolder delay st p = Except.ok st' ∧
          st'.slept = st.slept) := by
  refine ⟨?_, ?_, ?_⟩
  · intro remote outputFolder delay st p t ht hlink
    rcases hlink with h | h
    · rw [processRecord_ok_eq remote outputFolder delay st p t ht,
        processRecordOk_none remote outputFolder delay st p t h]
    · rw [processRecord_ok_eq remote outputFolder delay st p t ht,
        processRecordOk_empty remote outputFolder delay st p t h]
  · intro remote outputFolder delay st p t link body ht hlink hne hpage
    refine ⟨processRecordOk remote outputFolder delay st p t,
      processRecord_ok_eq remote outputFolder delay st p t ht, ?_⟩
    rw [processRecordOk_some remote outputFolder delay st p t link hlink hne,
      processLinked_200 remote outputFolder delay st t (slugOf p) link body hpage]
    by_cases hempty : (locateImages body).isEmpty
    · simp [hempty]
    · simp [hempty, downloadAll_slept]
  · intro remote outputFolder delay st p t link ht hlink hne hfail
    refine ⟨processRecordOk remote outputFolder delay st p t,
      processRecord_ok_eq remote outputFolder delay st p t ht, ?_⟩
    rw [processRecordOk_some remote outputFolder delay st p t link hlink hne]
    rcases hfail with h | ⟨code, body, hpage, hcode⟩
    · rw [processLinked_exn remote outputFolder delay st t (slugOf p) link h]
      simp
    · rw [processLinked_bad remote outputFolder delay st t (slugOf p) link code body
        hpage hcode]
      simp

/-- C4 amended, witness: a record with no link keeps the state unchanged,
and a record served a 200 page accumulates exactly one delay. -/
theorem C4_resolved_witness :
    processRecord remoteExn "out" defaultDelay (mkInit emptyFs) noLinkPost
      = Except.ok (mkInit emptyFs) ∧
    (∃ st', processRecord remoteC2 "out" defaultDelay (mkInit emptyFs) linkedPost
        = Except.ok st' ∧ st'.slept = (mkInit emptyFs).slept + defaultDelay) :=
  ⟨C4_resolved.1 remoteExn "out" defaultDelay (mkInit emptyFs) noLinkPost "untitled"
      rfl (Or.inl rfl),
   C4_resolved.2.1 remoteC2 "out" defaultDelay (mkInit emptyFs) linkedPost "untitled"
      pageLink doc2 rfl rfl (by decide) rfl⟩

/-- C6: for a record whose page fetch raises a network error or returns a
non-2xx status, a diagnostic line is printed after the scanning line, no
image request is issued and no download or write happens for that record,
the record is skipped with an ordinary state, and the crawl continues with
the next records from that state. -/
theorem C6_skip_on_fetch_failure (remote : Remote) (outputFolder : String)
    (delay : ℚ) (st : CrawlState) (p : Post) (ps : List Post) (t link : String)
    (ht : getTitle p.title = Except.ok t) (hlink : p.link = some link)
    (hne : link ≠ "") (hfail : pageFails remote link) :
    ∃ st' d, processRecord remote outputFolder delay st p = Except.ok st' ∧
      st'.downloaded = st.downloaded ∧
      st'.fs = st.fs ∧
      st'.imgRequests = st.imgRequests ∧
      st'.log = st.log ++ ["Scanning: " ++ t] ++ [d] ∧
      crawl remote outputFolder delay (p :: ps) st
        = crawl remote outputFolder delay ps st' := by
  rcases hfail with hexn | ⟨code, body, hpage, hcode⟩
  · refine ⟨addLog (addLog st ("Scanning: " ++ t)) "  Error processing post",
      "  Error processing post", ?_, rfl, rfl, rfl, rfl, ?_⟩
    · rw [processRecord_ok_eq remote outputFolder delay st p t ht,
        processRecordOk_some remote outputFolder delay st p t link hlink hne,
        processLinked_exn remote outputFolder delay st t (slugOf p) link hexn]
    · rw [crawl_cons_ok remote outputFolder delay st p ps t ht,
        processRecordOk_some remote outputFolder delay st p t link hlink hne,
        processLinked_exn remote outputFolder delay st t (slugOf p) link hexn]
  · have hne200 : code ≠ 200 := by
      intro h200
      subst h200
      exact hcode ⟨le_refl 200, by norm_num⟩
    refine ⟨addLog (addLog st ("Scanning: " ++ t)) ("  Failed to fetch " ++ link),
      "  Failed to fetch " ++ link, ?_, rfl, rfl, rfl, rfl, ?_⟩
    · rw [processRecord_ok_eq remote outputFolder delay st p t ht,
        processRecordOk_some remote outputFolder delay st p t link hlink hne,
        processLinked_bad remote outputFolder delay st t (slugOf p) link code body
          hpage hne200]
    · rw [crawl_cons_ok remote outputFolder delay st p ps t ht,
        processRecordOk_some remote outputFolder delay st p t link hlink hne,
        processLinked_bad remote outputFolder delay st t (slugOf p) link code body
          hpage hne200]

/-- C6, witness: a record whose page answers 404. -/
theorem C6_witness :
    ∃ st' d, processRecord remote404 "out" defaultDelay (mkInit emptyFs) linkedPost
        = Except.ok st' ∧
      st'.downloaded = (mkInit emptyFs).downloaded ∧
      st'.fs = (mkInit emptyFs).fs ∧
      st'.imgRequests = (mkInit emptyFs).imgRequests ∧
      st'.log = (mkInit emptyFs).log ++ ["Scanning: " ++ "untitled"] ++ [d] ∧
      crawl remote404 "out" defaultDelay (linkedPost :: []) (mkInit emptyFs)
        = crawl remote404 "out" defaultDelay [] st' :=
  C6_skip_on_fetch_failure remote404 "out" defaultDelay (mkInit emptyFs) linkedPost []
    "untitled" pageLink rfl rfl (by decide)
    (Or.inr ⟨404, Element.mk "html" [] [], rfl, by decide⟩)

/-- C7: a single image whose fetch raises, returns a non-2xx status, or
whose write fails, is never counted toward the downloaded total, the loop
goes on to the remaining candidates of the record, and every remaining
candidate whose file is absent still gets its own request. -/
theorem C7_image_isolation (remote : Remote) (link dir : String) (st : CrawlState)
    (u : String) (rest : List String)
    (hfresh : st.fs (fpOf dir link u) = none)
    (hfail : imgAttemptFails remote (normalizeUrl link u)) :
    (processImage remote link dir st u).downloaded = st.downloaded ∧
    downloadAll remote link dir (u :: rest) st
      = downloadAll remote link dir rest (processImage remote link dir st u) ∧
    (∀ (st2 : CrawlState) (v : String), st2.fs (fpOf dir link v) = none →
      (processImage remote link dir st2 v).imgRequests
        = st2.imgRequests ++ [normalizeUrl link v]) :=
  ⟨processImage_fail_downloaded remote link dir st u hfail,
   downloadAll_cons remote link dir u rest st,
   fun st2 v h2 => processImage_requests_fresh remote link dir st2 v h2⟩

/-- C7, witness: an image request that raises, inside a two-image record. -/
theorem C7_witness :
    (processImage remoteExn pageLink "out/p1" (mkInit emptyFs) thumbFancyU).downloaded
        = (mkInit emptyFs).downloaded ∧
    downloadAll remoteExn pageLink "out/p1" (thumbFancyU :: [fullU]) (mkInit emptyFs)
      = downloadAll remoteExn pageLink "out/p1" [fullU]
          (processImage remoteExn pageLink "out/p1" (mkInit emptyFs) thumbFancyU) ∧
    (∀ (st2 : CrawlState) (v : String), st2.fs (fpOf "out/p1" pageLink v) = none →
      (processImage remoteExn pageLink "out/p1" st2 v).imgRequests
        = st2.imgRequests ++ [normalizeUrl pageLink v]) :=
  C7_image_isolation remoteExn pageLink "out/p1" (mkInit emptyFs) thumbFancyU [fullU]
    rfl (Or.inl rfl)

/-- C8: an image whose derived filename already exists in the record
directory is left entirely alone: the state is unchanged, so no request is
issued, the stored contents stay as they were, and the counter is not
bumped. -/
theorem C8_skip_existing (remote : Remote) (link dir : String) (st : CrawlState)
    (u : String) (h : (st.fs (fpOf dir link u)).isSome = true) :
    processImage remote link dir st u = st ∧
    (processImage remote link dir st u).imgRequests = st.imgRequests ∧
    (processImage remote link dir st u).fs (fpOf dir link u)
      = st.fs (fpOf dir link u) ∧
    (processImage remote link dir st u).downloaded = st.downloaded := by
  have he := processImage_skip remote link dir st u h
  exact ⟨he, by rw [he], by rw [he], by rw [he]⟩

/-- C8, witness: the thumbnail file already sits in the record directory. -/
theorem C8_witness :
    processImage remoteExn pageLink "out/p1"
        (mkInit (updFs emptyFs (fpOf "out/p1" pageLink thumbFancyU) (FileContent.full 7)))
        thumbFancyU
      = mkInit (updFs emptyFs (fpOf "out/p1" pageLink thumbFancyU) (FileContent.full 7)) :=
  (C8_skip_existing remoteExn pageLink "out/p1"
    (mkInit (updFs emptyFs (fpOf "out/p1" pageLink thumbFancyU) (FileContent.full 7)))
    thumbFancyU (by simp [mkInit, updFs])).1

/-- C9: when the write of an image raises after the 200 response, the
partly written file stays at the final destination path and the counter is
not bumped; any later attempt that finds a file at that path, in this run
or any later run against any remote, skips the image without a request and
leaves the file as it is, so a truncated file is never retried or
repaired. -/
theorem C9_truncated_kept (remote remote2 : Remote) (link dir : String)
    (st : CrawlState) (u : String) (ct : Nat)
    (hfresh : st.fs (fpOf dir link u) = none)
    (himg : remote.img (normalizeUrl link u) = ImgResult.status 200 ct true) :
    (processImage remote link dir st u).fs (fpOf dir link u)
        = some (FileContent.truncated ct) ∧
    (processImage remote link dir st u).downloaded = st.downloaded ∧
    (∀ st2 : CrawlState, (st2.fs (fpOf dir link u)).isSome = true →
      processImage remote2 link dir st2 u = st2) := by
  have hex : (st.fs (fpOf dir link u)).isSome = false := by
    rw [hfresh]
    rfl
  refine ⟨?_, ?_, fun st2 h2 => processImage_skip remote2 link dir st2 u h2⟩
  · simp [processImage, hex, himg, addLog, updFs]
  · simp [processImage, hex, himg, addLog]

/-- C9, witness: a write that fails after a 200 response leaves the
truncated file, which every later attempt skips. -/
theorem C9_witness :
    (processImage ⟨fun _ => PageResult.exn, fun _ => ImgResult.status 200 5 true⟩
        pageLink "out/p1" (mkInit emptyFs) thumbFancyU).fs
        (fpOf "out/p1" pageLink thumbFancyU)
      = some (FileContent.truncated 5) ∧
    (processImage ⟨fun _ => PageResult.exn, fun _ => ImgResult.status 200 5 true⟩
        pageLink "out/p1" (mkInit emptyFs) thumbFancyU).downloaded
      = (mkInit emptyFs).downloaded ∧
    (∀ st2 : CrawlState, (st2.fs (fpOf "out/p1" pageLink thumbFancyU)).isSome = true →
      processImage remoteExn pageLink "out/p1" st2 thumbFancyU = st2) :=
  C9_truncated_kept ⟨fun _ => PageResult.exn, fun _ => ImgResult.status 200 5 true⟩
    remoteExn pageLink "out/p1" (mkInit emptyFs) thumbFancyU 5 rfl rfl

theorem processRecord_error_eq (remote : Remote) (outputFolder : String)
    (delay : ℚ) (st : CrawlState) (p : Post) (e : String)
    (he : getTitle p.title = Except.error e) :
    processRecord remote outputFolder delay st p = Except.error e := by
  simp [processRecord, he]

theorem recGood_mono (remote : Remote) (outputFolder : String)
    {f g : String → Option FileContent} (hfg : fsLe f g) (p : Post)
    (h : recGood remote outputFolder f p) : recGood remote outputFolder g p := by
  intro link body hlink hne hpage raw hraw
  exact imgGood_mono remote link _ hfg raw (h link body hlink hne hpage raw hraw)

theorem processRecordOk_fs_mono (remote : Remote) (outputFolder : String)
    (delay : ℚ) (st : CrawlState) (p : Post) (t : String) :
    fsLe st.fs (processRecordOk remote outputFolder delay st p t).fs := by
  rcases hlink : p.link with _ | link
  · rw [processRecordOk_none remote outputFolder delay st p t hlink]
    exact fsLe_refl _
  · by_cases hne : link = ""
    · subst hne
      rw [processRecordOk_empty remote outputFolder delay st p t hlink]
      exact fsLe_refl _
    · rw [processRecordOk_some remote outputFolder delay st p t link hlink hne]
      rcases hpage : remote.page link with ⟨code, body⟩ | _
      · by_cases hc : code = 200
        · subst hc
          rw [processLinked_200 remote outputFolder delay st t (slugOf p) link body hpage]
          by_cases hempty : (locateImages body).isEmpty
          · rw [if_pos hempty]
            exact fsLe_refl _
          · rw [if_neg hempty]
            exact downloadAll_fs_mono remote link (outputFolder ++ "/" ++ slugOf p)
              (locateImages body)
              (addLog (addLog st ("Scanning: " ++ t)) "  Found potential NGG images.")
        · rw [processLinked_bad remote outputFolder delay st t (slugOf p) link code body
            hpage hc]
          exact fsLe_refl _
      · rw [processLinked_exn remote outputFolder delay st t (slugOf p) link hpage]
        exact fsLe_refl _

/-- After a record is processed, every candidate of that record needs no
further work on the resulting output tree. -/
theorem processRecordOk_good_self (remote : Remote) (outputFolder : String)
    (delay : ℚ) (st : CrawlState) (p : Post) (t : String) :
    recGood remote outputFolder (processRecordOk remote outputFolder delay st p t).fs p := by
  intro link body hlink hne hpage raw hraw
  rw [processRecordOk_some remote outputFolder delay st p t link hlink hne,
    processLinked_200 remote outputFolder delay st t (slugOf p) link body hpage]
  by_cases hempty : (locateImages body).isEmpty
  · rw [List.isEmpty_iff] at hempty
    rw [hempty] at hraw
    exact absurd hraw (List.not_mem_nil raw)
  · rw [if_neg hempty, addSleep_fs]
    exact downloadAll_good remote link (outputFolder ++ "/" ++ slugOf p)
      (locateImages body) _ raw hraw

/-- A record all of whose candidates need no work changes neither the
output tree nor the counter. -/
theorem processRecordOk_noop (remote : Remote) (outputFolder : String)
    (delay : ℚ) (st : CrawlState) (p : Post) (t : String)
    (hgood : recGood remote outputFolder st.fs p) :
    (processRecordOk remote outputFolder delay st p t).fs = st.fs ∧
      (processRecordOk remote outputFolder delay st p t).downloaded = st.downloaded := by
  rcases hlink : p.link with _ | link
  · rw [processRecordOk_none remote outputFolder delay st p t hlink]
    exact ⟨rfl, rfl⟩
  · by_cases hne : link = ""
    · subst hne
      rw [processRecordOk_empty remote outputFolder delay st p t hlink]
      exact ⟨rfl, rfl⟩
    · rw [processRecordOk_some remote outputFolder delay st p t link hlink hne]
      rcases hpage : remote.page link with ⟨code, body⟩ | _
      · by_cases hc : code = 200
        · subst hc
          rw [processLinked_200 remote outputFolder delay st t (slugOf p) link body hpage]
          by_cases hempty : (locateImages body).isEmpty
          · rw [if_pos hempty]
            exact ⟨rfl, rfl⟩
          · rw [if_neg hempty]
            have hall : ∀ raw ∈ locateImages body,
                imgGood remote link (outputFolder ++ "/" ++ slugOf p)
                  (addLog (addLog st ("Scanning: " ++ t))
                    "  Found potential NGG images.").fs raw := by
              intro raw hraw
              exact hgood link body hlink hne hpage raw hraw
            obtain ⟨h1, h2⟩ := downloadAll_noop remote link
              (outputFolder ++ "/" ++ slugOf p) (locateImages body) _ hall
            exact ⟨h1, h2⟩
        · rw [processLinked_bad remote outputFolder delay st t (slugOf p) link code body
            hpage hc]
          exact ⟨rfl, rfl⟩
      · rw [processLinked_exn remote outputFolder delay st t (slugOf p) link hpage]
        exact ⟨rfl, rfl⟩

/-- A successful step of the record loop, decomposed. -/
theorem crawl_cons_elim (remote : Remote) (outputFolder : String) (delay : ℚ)
    (p : Post) (ps : List Post) (st st1 : CrawlState)
    (h : crawl remote outputFolder delay (p :: ps) st = Except.ok st1) :
    ∃ t, getTitle p.title = Except.ok t ∧
      crawl remote outputFolder delay ps
        (processRecordOk remote outputFolder delay st p t) = Except.ok st1 := by
  rcases ht : getTitle p.title with e | t
  · rw [crawl, processRecord_error_eq remote outputFolder delay st p e ht] at h
    simp at h
  · rw [crawl_cons_ok remote outputFolder delay st p ps t ht] at h
    exact ⟨t, rfl, h⟩

theorem crawl_fs_mono (remote : Remote) (outputFolder : String) (delay : ℚ) :
    ∀ (ps : List Post) (st st1 : CrawlState),
      crawl remote outputFolder delay ps st = Except.ok st1 → fsLe st.fs st1.fs
  | [], st, st1, h => by
    rw [crawl_nil] at h
    cases h
    exact fsLe_refl _
  | p :: ps, st, st1, h => by
    obtain ⟨t, ht, hrest⟩ := crawl_cons_elim remote outputFolder delay p ps st st1 h
    exact fsLe_trans (processRecordOk_fs_mono remote outputFolder delay st p t)
      (crawl_fs_mono remote outputFolder delay ps _ st1 hrest)

/-- After a completed run, every record of the input needs no further work
on the final output tree, and every record has a well-shaped title. -/
theorem crawl_good_all (remote : Remote) (outputFolder : String) (delay : ℚ) :
    ∀ (ps : List Post) (st st1 : CrawlState),
      crawl remote outputFolder delay ps st = Except.ok st1 →
      ∀ p ∈ ps, recGood remote outputFolder st1.fs p ∧
        ∃ t, getTitle p.title = Except.ok t
  | [], _, _, _, p, hp => absurd hp (List.not_mem_nil p)
  | q :: ps, st, st1, h, p, hp => by
    obtain ⟨t, ht, hrest⟩ := crawl_cons_elim remote outputFolder delay q ps st st1 h
    rcases List.mem_cons.mp hp with hp | hp
    · subst hp
      refine ⟨?_, t, ht⟩
      exact recGood_mono remote outputFolder
        (crawl_fs_mono remote outputFolder delay ps _ st1 hrest) p
        (processRecordOk_good_self remote outputFolder delay st p t)
    · exact crawl_good_all remote outputFolder delay ps _ st1 hrest p hp

/-- A run over records that all need no work completes, writes nothing and
counts nothing. -/
theorem crawl_noop (remote : Remote) (outputFolder : String) (delay : ℚ) :
    ∀ (ps : List Post) (st : CrawlState),
      (∀ p ∈ ps, recGood remote outputFolder st.fs p ∧
        ∃ t, getTitle p.title = Except.ok t) →
      ∃ st2, crawl remote outputFolder delay ps st = Except.ok st2 ∧
        st2.fs = st.fs ∧ st2.downloaded = st.downloaded
  | [], st, _ => ⟨st, rfl, rfl, rfl⟩
  | q :: ps, st, h => by
    obtain ⟨hgood, t, ht⟩ := h q (List.mem_cons_self q ps)
    obtain ⟨hfs, hdl⟩ := processRecordOk_noop remote outputFolder delay st q t hgood
    have hrest : ∀ p ∈ ps,
        recGood remote outputFolder
          (processRecordOk remote outputFolder delay st q t).fs p ∧
        ∃ t2, getTitle p.title = Except.ok t2 := by
      intro p hp
      rw [hfs]
      exact h p (List.mem_cons_of_mem q hp)
    obtain ⟨st2, hc, h1, h2⟩ := crawl_noop remote outputFolder delay ps _ hrest
    refine ⟨st2, ?_, h1.trans hfs, h2.trans hdl⟩
    rw [crawl_cons_ok remote outputFolder delay st q ps t ht]
    exact hc

/-- C5: running the crawl a second time against the same remote, starting
from the output tree the first run produced, completes with zero newly
downloaded images and leaves the output tree exactly as the first run left
it: every file written by the first run is found by the existence check
and skipped, and every image the first run could not produce a file for
fails the same way again. -/
theorem C5_idempotent (remote : Remote) (posts : List Post) (outputFolder : String)
    (delay : ℚ) (fs0 : String → Option FileContent) (st1 : CrawlState)
    (h : scrape_ngg_images remote posts outputFolder delay fs0 = Except.ok st1) :
    ∃ st2, scrape_ngg_images remote posts outputFolder delay st1.fs = Except.ok st2 ∧
      st2.downloaded = 0 ∧ st2.fs = st1.fs := by
  have hgood := crawl_good_all remote outputFolder delay posts (mkInit fs0) st1 h
  have hall : ∀ p ∈ posts, recGood remote outputFolder (mkInit st1.fs).fs p ∧
      ∃ t, getTitle p.title = Except.ok t := fun p hp => hgood p hp
  obtain ⟨st2, hc, h1, h2⟩ := crawl_noop remote outputFolder delay posts
    (mkInit st1.fs) hall
  exact ⟨st2, hc, h2, h1⟩

/-- C5, witness: a one-record crawl whose page fetch fails; the second run
starts from the tree of the first and downloads nothing. -/
theorem C5_idempotent_witness :
    ∃ st2, scrape_ngg_images remote404 [linkedPost] "out" defaultDelay
        (addLog (addLog (mkInit emptyFs) ("Scanning: " ++ "untitled"))
          ("  Failed to fetch " ++ pageLink)).fs = Except.ok st2 ∧
      st2.downloaded = 0 ∧
      st2.fs = (addLog (addLog (mkInit emptyFs) ("Scanning: " ++ "untitled"))
          ("  Failed to fetch " ++ pageLink)).fs :=
  C5_idempotent remote404 [linkedPost] "out" defaultDelay emptyFs
    (addLog (addLog (mkInit emptyFs) ("Scanning: " ++ "untitled"))
      ("  Failed to fetch " ++ pageLink)) rfl
